import Mathlib

/-!
Shallow embedding of the OCR-CLI adaptive document-quality pipeline.

Each definition translates one function of the repository:
  * `src/utils/text_validator.py`   — `TextValidator` (correction and text scoring);
  * `src/utils/image_processor.py`  — `AdvancedImageProcessor` (quality metrics,
    deskew decision, rotation geometry);
  * `src/adapters/ocr_tesseract.py` and `src/adapters/ocr_tesseract_opencv.py`
    — the two recognition adapters;
  * `src/application/use_cases.py`  — `EnhancedProcessDocument`.

Text is a `List Char`; rasters are grayscale `List (List ℤ)` grids; scores are
exact rationals.  Python regular expressions are translated for the ASCII
fragment they are applied to in the theorems below (Python's Unicode-aware
classes agree with the ASCII ones on every input used here).
-/

namespace OCRCLI

/-! ### Character classes (the regex classes of `text_validator.py`, ASCII fragment) -/

/-- Python `\s` (and `str.strip`/`str.split` whitespace), ASCII fragment:
space, tab, newline, carriage return, vertical tab, form feed. -/
def pyIsSpace (c : Char) : Bool :=
  c = ' ' || c = '\t' || c = '\n' || c = '\r' || c = Char.ofNat 11 || c = Char.ofNat 12

/-- Regex class `[a-zA-Z]` as used in `contextual_number_letter_correction`. -/
def isAsciiLetter (c : Char) : Bool :=
  ('a' ≤ c && c ≤ 'z') || ('A' ≤ c && c ≤ 'Z')

/-- Regex class `\d`, ASCII fragment. -/
def isAsciiDigit (c : Char) : Bool := '0' ≤ c && c ≤ '9'

/-- Regex class `\w` (word characters of `\b\w+\b`), ASCII fragment. -/
def pyIsWordChar (c : Char) : Bool := isAsciiLetter c || isAsciiDigit c || c = '_'

/-- Python `str.strip()`. -/
def pyStrip (l : List Char) : List Char :=
  ((l.dropWhile pyIsSpace).reverse.dropWhile pyIsSpace).reverse

/-- Worker for `splitOnRuns`: `cur` is the current piece reversed, `inD` says
whether the scanner stands inside a delimiter run. -/
def splitRunsGo (p : Char → Bool) (cur : List Char) (inD : Bool) : List Char → List (List Char)
  | [] => if inD then [[]] else [cur.reverse]
  | c :: rest =>
    if p c then
      if inD then splitRunsGo p [] true rest
      else cur.reverse :: splitRunsGo p [] true rest
    else
      if inD then splitRunsGo p [c] false rest
      else splitRunsGo p (c :: cur) false rest

/-- Python `re.split` on a character class with `+` (maximal delimiter runs),
keeping the empty pieces `re.split` produces at the edges. -/
def splitOnRuns (p : Char → Bool) (l : List Char) : List (List Char) :=
  splitRunsGo p [] false l

/-- Worker for `splitOnCharKeep`. -/
def splitCharGo (d : Char) (cur : List Char) : List Char → List (List Char)
  | [] => [cur.reverse]
  | c :: rest =>
    if c = d then cur.reverse :: splitCharGo d [] rest
    else splitCharGo d (c :: cur) rest

/-- Python `str.split(d)` for a single delimiter character: empty pieces kept. -/
def splitOnCharKeep (d : Char) (l : List Char) : List (List Char) :=
  splitCharGo d [] l

/-- Python `str.split()` with no argument: maximal non-whitespace runs,
empty pieces dropped. -/
def pySplitWs (l : List Char) : List (List Char) :=
  (splitOnRuns pyIsSpace l).filter (· ≠ [])

/-- Python `re.findall(r"\b\w+\b", text)`: the maximal word-character runs. -/
def wordTokens (l : List Char) : List (List Char) :=
  (splitOnRuns (fun c => !pyIsWordChar c) l).filter (· ≠ [])

/-! ### `TextValidator.auto_correct_ocr_errors` and its steps -/

/-- Python `str.replace(a, rep)` for a one-character pattern. -/
def replace1 (a : Char) (rep : List Char) : List Char → List Char
  | [] => []
  | c :: rest =>
    if c = a then rep ++ replace1 a rep rest
    else c :: replace1 a rep rest

/-- Python `str.replace(ab, rep)` for a two-character pattern: leftmost,
non-overlapping, scanning resumes after each replacement. -/
def replace2 (a b : Char) (rep : List Char) : List Char → List Char
  | [] => []
  | [c] => [c]
  | c :: d :: rest =>
    if c = a ∧ d = b then rep ++ replace2 a b rep rest
    else c :: replace2 a b rep (d :: rest)

/-- A pattern of the `common_ocr_errors` table (each key is 1 or 2 characters). -/
inductive SubstPat
  | one (a : Char)
  | two (a b : Char)

/-- Apply one `(pattern, replacement)` entry of the table. -/
def applySubst : SubstPat × List Char → List Char → List Char
  | (.one a, rep), l => replace1 a rep l
  | (.two a b, rep), l => replace2 a b rep l

/-- The `common_ocr_errors` dictionary of `TextValidator.__init__`, in its
insertion order (Python dicts iterate in insertion order). -/
def common_ocr_errors : List (SubstPat × List Char) :=
  [ (.one '0', ['O']), (.one 'O', ['0']),
    (.one '1', ['l']), (.one 'l', ['1']), (.one 'I', ['1']),
    (.one '5', ['S']), (.one 'S', ['5']),
    (.one '6', ['G']), (.one 'G', ['6']),
    (.one '8', ['B']), (.one 'B', ['8']),
    (.two 'r' 'n', ['m']), (.two 'v' 'v', ['w']), (.two 'n' 'n', ['ñ']),
    (.two 'c' 'l', ['d']), (.two 'f' 'i', ['ñ']), (.two 'l' 'i', ['h']),
    (.one '¢', ['c']), (.one '€', ['e']), (.one '£', ['E']),
    (.one '§', ['s']), (.one '¿', ['?']), (.one '¡', ['!']),
    (.two ' ' ',', [',']), (.two ' ' '.', ['.']), (.two ' ' ';', [';']),
    (.two '(' ' ', ['(']), (.two ' ' ')', [')']),
    (.two '[' ' ', ['[']), (.two ' ' ']', [']']) ]

/-- Step 2 of `auto_correct_ocr_errors`: the table's substitutions applied
one after the other, in dictionary order. -/
def substitution_pass (l : List Char) : List Char :=
  common_ocr_errors.foldl (fun acc pr => applySubst pr acc) l

/-- `spanish_patterns['articles']`. -/
def spanish_articles : List (List Char) :=
  ["el", "la", "los", "las", "un", "una", "unos", "unas"].map String.toList

/-- `spanish_patterns['prepositions']`. -/
def spanish_prepositions : List (List Char) :=
  ["a", "ante", "bajo", "con", "contra", "de", "desde", "en", "entre", "hacia",
   "hasta", "para", "por", "según", "sin", "sobre", "tras"].map String.toList

/-- One word of `contextual_number_letter_correction`: `prev` and `next` are
the lowercased neighbour tokens (`[]` at the edges). -/
def contextualCorrectWord (prev next word : List Char) : List Char :=
  if prev ∈ spanish_articles ∨ prev ∈ spanish_prepositions ∨ next ∈ spanish_articles then
    replace1 '5' ['S'] (replace1 '1' ['l'] (replace1 '0' ['O'] word))
  else if word.any isAsciiLetter then
    replace1 '1' ['l'] (replace1 '0' ['O'] word)
  else if word ≠ [] ∧ word.all (fun c => isAsciiDigit c || c = '.' || c = ',') then
    replace1 'S' ['5'] (replace1 'l' ['1'] (replace1 'O' ['0'] word))
  else word

/-- The loop of `contextual_number_letter_correction`: `prev` carries the
previous original token (`[]` before the first). -/
def contextualWalk (prev : List Char) : List (List Char) → List (List Char)
  | [] => []
  | w :: rest =>
    contextualCorrectWord (prev.map Char.toLower) ((rest.headD []).map Char.toLower) w ::
      contextualWalk w rest

/-- `TextValidator.contextual_number_letter_correction`. -/
def contextual_number_letter_correction (l : List Char) : List Char :=
  List.intercalate [' '] (contextualWalk [] (pySplitWs l))

/-- Worker for `collapseWs`. -/
def collapseWsGo (inRun : Bool) : List Char → List Char
  | [] => []
  | c :: rest =>
    if pyIsSpace c then
      if inRun then collapseWsGo true rest else ' ' :: collapseWsGo true rest
    else c :: collapseWsGo false rest

/-- Step 4 of `auto_correct_ocr_errors`: `re.sub(r"\s+", " ", text)`. -/
def collapseWs (l : List Char) : List Char := collapseWsGo false l

/-- The class `[,.;:!?]` of `fix_punctuation`. -/
def isPunctCh (c : Char) : Bool :=
  c = ',' || c = '.' || c = ';' || c = ':' || c = '!' || c = '?'

/-- `re.sub` of a pattern `\s+X`: a maximal whitespace run directly before a
target character is dropped.  `acc` holds the pending whitespace reversed. -/
def dropSpaceBefore (isTarget : Char → Bool) (acc : List Char) : List Char → List Char
  | [] => acc.reverse
  | c :: rest =>
    if pyIsSpace c then dropSpaceBefore isTarget (c :: acc) rest
    else if isTarget c ∧ acc ≠ [] then c :: dropSpaceBefore isTarget [] rest
    else acc.reverse ++ c :: dropSpaceBefore isTarget [] rest

/-- `re.sub(r"([,.;:!?])([^\s])", r"\1 \2", text)`: non-overlapping, the scan
resumes after the second character of each match. -/
def insertSpaceAfterPunct : List Char → List Char
  | [] => []
  | [c] => [c]
  | c :: d :: rest =>
    if isPunctCh c ∧ ¬ pyIsSpace d then c :: ' ' :: d :: insertSpaceAfterPunct rest
    else c :: insertSpaceAfterPunct (d :: rest)

/-- `re.sub` of a pattern `X\s+`: whitespace directly after a target (opening)
character is dropped; `afterOpen` says the scanner stands in such a run. -/
def dropSpaceAfter (isOpen : Char → Bool) (afterOpen : Bool) : List Char → List Char
  | [] => []
  | c :: rest =>
    if afterOpen ∧ pyIsSpace c then dropSpaceAfter isOpen true rest
    else if isOpen c then c :: dropSpaceAfter isOpen true rest
    else c :: dropSpaceAfter isOpen false rest

/-- `TextValidator.fix_punctuation`: its eight `re.sub` passes in order. -/
def fix_punctuation (l : List Char) : List Char :=
  let t1 := dropSpaceBefore isPunctCh [] l
  let t2 := insertSpaceAfterPunct t1
  let t3 := dropSpaceAfter (fun c => c = '(') false t2
  let t4 := dropSpaceBefore (fun c => c = ')') [] t3
  let t5 := dropSpaceAfter (fun c => c = '[') false t4
  let t6 := dropSpaceBefore (fun c => c = ']') [] t5
  let t7 := dropSpaceAfter (fun c => c = '\"') false t6
  dropSpaceBefore (fun c => c = '\"') [] t7

/-- The class `[.!?]` splitting sentences. -/
def isSentenceMark (c : Char) : Bool := c = '.' || c = '!' || c = '?'

/-- `sentence[0].upper() + sentence[1:] if len(sentence) > 1 else sentence.upper()`. -/
def capitalizeSentence : List Char → List Char
  | [] => []
  | [c] => [c.toUpper]
  | c :: rest => c.toUpper :: rest

/-- State of the scanner for `re.sub(r"([.!?]\s+)([a-z])", …)`. -/
inductive CapState
  | plain
  | afterMark
  | afterSpace
deriving DecidableEq

/-- The scanner for `re.sub(r"([.!?]\s+)([a-z])", upper-case group 2)`. -/
def upperAfterGo : CapState → List Char → List Char
  | _, [] => []
  | st, c :: rest =>
    if isSentenceMark c then c :: upperAfterGo .afterMark rest
    else if pyIsSpace c then
      match st with
      | .plain => c :: upperAfterGo .plain rest
      | _ => c :: upperAfterGo .afterSpace rest
    else if st = .afterSpace ∧ 'a' ≤ c ∧ c ≤ 'z' then
      c.toUpper :: upperAfterGo .plain rest
    else c :: upperAfterGo .plain rest

/-- `TextValidator.fix_capitalization`. -/
def fix_capitalization (l : List Char) : List Char :=
  let pieces := ((splitOnRuns isSentenceMark l).map pyStrip).filter (· ≠ [])
  upperAfterGo .plain (List.intercalate ['.', ' '] (pieces.map capitalizeSentence))

/-- Step 1 of `auto_correct_ocr_errors`, `unicodedata.normalize('NFKC', text)`,
modelled as the identity: every character in the substitution tables and in
the inputs of the theorems below is NFKC-invariant. -/
def unicodeNormalizeNFKC (l : List Char) : List Char := l

/-- `TextValidator.auto_correct_ocr_errors`: NFKC normalization, the
substitution table, contextual number/letter correction, whitespace
collapsing, punctuation fixing, capitalization fixing, final strip. -/
def auto_correct_ocr_errors (l : List Char) : List Char :=
  pyStrip (fix_capitalization (fix_punctuation (collapseWs
    (contextual_number_letter_correction (substitution_pass (unicodeNormalizeNFKC l))))))

/-! ### `TextValidator.calculate_text_quality_score` and its metrics -/

/-- Population mean of a list of rationals (`0` on `[]`, as `0/0 = 0` in `ℚ`). -/
def listMean (l : List ℚ) : ℚ := l.sum / l.length

/-- Population variance (`numpy`'s default `ddof = 0`). -/
def listVariance (l : List ℚ) : ℚ :=
  (l.map (fun x => (x - listMean l) ^ 2)).sum / l.length

/-- `TextValidator.calculate_word_ratio`: the share of `\b\w+\b` tokens that
are alphabetic and longer than one character. -/
def calculate_word_ratio (l : List Char) : ℚ :=
  let ws := wordTokens l
  if ws = [] then 0
  else (ws.countP (fun w => 1 < w.length ∧ w.all (fun c => isAsciiLetter c)) : ℚ) / ws.length

/-- `TextValidator.calculate_punctuation_ratio`: banded closeness of the
average sentence length (in words) to the 10–25 band. -/
def calculate_punctuation_ratio (l : List Char) : ℚ :=
  let ss := splitOnRuns isSentenceMark l
  if ss.length < 2 then 1/2
  else
    let avg := (ss.map (fun s => ((pySplitWs (pyStrip s)).length : ℚ))).sum / ss.length
    if 10 ≤ avg ∧ avg ≤ 25 then 1
    else if 5 ≤ avg ∧ avg ≤ 35 then 7/10
    else 3/10

/-- `TextValidator.calculate_capitalization_score`: the share of sentence
pieces whose stripped text starts with an upper-case letter. -/
def calculate_capitalization_score (l : List Char) : ℚ :=
  let ss := splitOnRuns isSentenceMark l
  if ss = [] then 0
  else
    (ss.countP (fun s =>
      let s' := pyStrip s
      s' ≠ [] ∧ (s'.headD ' ').isUpper) : ℚ) / ss.length

/-- The class ``[~`@#$%^&*+={}|\[\]\\:";'<>?/]`` of problematic characters
(`Char.ofNat 96` is the backquote, `Char.ofNat 39` the apostrophe). -/
def isProblematicChar (c : Char) : Bool :=
  c = '~' || c = Char.ofNat 96 || c = '@' || c = '#' || c = '$' || c = '%' ||
  c = '^' || c = '&' || c = '*' || c = '+' || c = '=' || c = '{' || c = '}' ||
  c = '|' || c = '[' || c = ']' || c = '\\' || c = ':' || c = '\"' || c = ';' ||
  c = Char.ofNat 39 || c = '<' || c = '>' || c = '?' || c = '/'

/-- `TextValidator.calculate_special_chars_ratio`. -/
def calculate_special_chars_ratio (l : List Char) : ℚ :=
  if l = [] then 0
  else (l.countP isProblematicChar : ℚ) / l.length

/-- `TextValidator.calculate_line_consistency`: inverse normalized variance of
the stripped non-empty line lengths. -/
def calculate_line_consistency (l : List Char) : ℚ :=
  let lines := splitOnCharKeep '\n' l
  if lines.length < 2 then 1
  else
    let ls := ((lines.map pyStrip).filter (· ≠ [])).map (fun s => (s.length : ℚ))
    if ls = [] then 0
    else min 1 (1 / (1 + listVariance ls / 100))

/-- The weighted composite of `calculate_text_quality_score`, before the early
return on whitespace-only text: word ratio × 0.3 + punctuation × 0.2 +
capitalization × 0.2 + (1 − special chars) × 0.2 + line consistency × 0.1,
clamped to [0, 1]. -/
def text_quality_formula (l : List Char) : ℚ :=
  min 1 (max 0 (
    calculate_word_ratio l * 0.3 +
    calculate_punctuation_ratio l * 0.2 +
    calculate_capitalization_score l * 0.2 +
    (1 - calculate_special_chars_ratio l) * 0.2 +
    calculate_line_consistency l * 0.1))

/-- `TextValidator.calculate_text_quality_score`: `0.0` when the stripped text
is empty, otherwise the clamped weighted composite. -/
def calculate_text_quality_score (l : List Char) : ℚ :=
  if pyStrip l = [] then 0
  else text_quality_formula l

/-! ### Recognition adapters (`ocr_tesseract.py`, `ocr_tesseract_opencv.py`)

`pytesseract.image_to_string` may raise (missing engine, corrupted raster,
timeout), so a recognition call is a function into `Except OcrFailure String`;
neither adapter has a handler around it, so the page loop is `mapM`: the first
failing call aborts the whole comprehension with that failure. -/

/-- The recognition-engine failure kinds of the spec's error taxonomy. -/
inductive OcrFailure
  | engineUnavailable
  | corruptedRaster
  | timeout
deriving DecidableEq

/-- The page loop shared by both adapters: run the per-page action on each
page in order; the first failing call aborts the loop with its failure (an
uncaught Python exception leaves the list comprehension). -/
def pageLoop {α : Type} (recognize : α → Except OcrFailure String) :
    List α → Except OcrFailure (List String)
  | [] => .ok []
  | img :: rest =>
    match recognize img with
    | .error e => .error e
    | .ok t =>
      match pageLoop recognize rest with
      | .error e => .error e
      | .ok ts => .ok (t :: ts)

/-- `TesseractAdapter.extract_text`, over already-rasterized pages: run the
engine on every page and join the page texts with `"\n\n"`. -/
def tesseract_extract_text {α : Type} (recognize : α → Except OcrFailure String)
    (images : List α) : Except OcrFailure String :=
  (pageLoop recognize images).map (String.intercalate "\n\n")

/-- The constructor flags of `TesseractOpenCVAdapter`. -/
structure OpenCVAdapterCfg where
  enable_preprocessing : Bool
  enable_deskewing : Bool
  enable_denoising : Bool
  enable_contrast_enhancement : Bool
deriving DecidableEq

/-- `TesseractOpenCVAdapter.extract_text`: each page is preprocessed (when
`enable_preprocessing` is set) before the engine call; page texts are joined
with `"\n\n"`.  `preprocess` stands for `_preprocess_image` (instantiated with
the embedded pipeline below where a theorem needs it). -/
def opencv_extract_text {α : Type} (cfg : OpenCVAdapterCfg) (preprocess : α → α)
    (recognize : α → Except OcrFailure String) (images : List α) :
    Except OcrFailure String :=
  (pageLoop (fun img =>
    recognize (if cfg.enable_preprocessing then preprocess img else img)) images).map
    (String.intercalate "\n\n")

/-! ### `EnhancedProcessDocument` (`use_cases.py`) -/

/-- One result of `self.ocr.extract_with_metrics` (text plus the
`average_confidence` the orchestrator reads from it). -/
structure OcrRun where
  text : String
  confidence : ℚ
deriving DecidableEq

/-- The constructor arguments of `EnhancedProcessDocument` the control flow
reads (defaults `min_quality_threshold = 60.0`, `enable_auto_retry = True`). -/
structure EnhancedConfig where
  min_quality_threshold : ℚ := 60
  enable_auto_retry : Bool := true

/-- One extraction attempt as retained by the orchestrator (text and score). -/
structure Attempt where
  text : String
  score : ℚ
deriving DecidableEq

/-- What one call of `EnhancedProcessDocument.__call__` produces: the
extraction attempts actually performed (in order), the text passed on to
storage and returned, the quality score, and whether the low-quality warning
branch (lines 172–178) fired — that branch only logs; its comment reads
"Por simplicidad, usamos el mismo resultado". -/
structure EnhancedOutcome where
  attempts : List Attempt
  text : String
  quality_score : ℚ
  warned : Bool
deriving DecidableEq

/-- `EnhancedProcessDocument.__call__`, success path: `hasMetrics` is
`hasattr(self.ocr, 'extract_with_metrics')`, and `runs n` is what the n-th
recognition call would return.  The body performs exactly one recognition
call (`runs 0`): with metrics the score is the reported confidence, without
them the score is hard-coded `100`; the retry condition only logs. -/
def enhancedProcess (cfg : EnhancedConfig) (hasMetrics : Bool)
    (runs : ℕ → OcrRun) : EnhancedOutcome :=
  if hasMetrics then
    let r := runs 0
    { attempts := [⟨r.text, r.confidence⟩]
      text := r.text
      quality_score := r.confidence
      warned := r.confidence < cfg.min_quality_threshold ∧ cfg.enable_auto_retry }
  else
    let r := runs 0
    { attempts := [⟨r.text, 100⟩]
      text := r.text
      quality_score := 100
      warned := false }

/-- `EnhancedProcessDocument.__call__` with a fallible first extraction: the
`except` block at lines 224–234 records error metrics, logs, and re-raises
(`raise`), so a recognition failure escapes the use case. -/
def enhancedProcessFallible (cfg : EnhancedConfig)
    (extraction : Except OcrFailure OcrRun) : Except OcrFailure EnhancedOutcome :=
  match extraction with
  | .error e => .error e
  | .ok r => .ok (enhancedProcess cfg true (fun _ => r))

/-- The best-scoring attempt of a list (first wins ties), as the spec's
`Done`/`Exhausted` states describe the returned attempt. -/
def bestAttempt (l : List Attempt) : Option Attempt :=
  l.foldl (fun acc a =>
    match acc with
    | none => some a
    | some b => if a.score > b.score then some a else some b) none

/-! ### Rasters (`image_processor.py`, `ocr_tesseract_opencv.py`) -/

/-- A grayscale raster: rows of integer pixel intensities (uint8 values in
the theorems' hypotheses). -/
abbrev Img := List (List ℤ)

/-- Number of rows. -/
def rowsOf (img : Img) : ℕ := img.length

/-- Number of columns (of the first row; the rasters used are rectangular). -/
def colsOf (img : Img) : ℕ := (img.headD []).length

/-- All pixel values, row-major. -/
def flatPix (img : Img) : List ℤ := img.flatten

/-- `cv2.borderInterpolate` for `BORDER_REFLECT_101` at the radius-1 overhang
the 3×3 Laplacian aperture produces (`n ≤ 1` maps to 0, as OpenCV does for a
single-element axis). -/
def reflect101 (n : ℕ) (i : ℤ) : ℕ :=
  if n ≤ 1 then 0
  else if i < 0 then (-i).toNat
  else if (n : ℤ) ≤ i then (2 * n - 2 - i).toNat
  else i.toNat

/-- `cv2.borderInterpolate` for `BORDER_REPLICATE`: clamp to the valid range. -/
def replicateIdx (n : ℕ) (i : ℤ) : ℕ :=
  if i < 0 then 0 else if (n : ℤ) ≤ i then n - 1 else i.toNat

/-- Pixel access through a border policy. -/
def pxWith (bi : ℕ → ℤ → ℕ) (img : Img) (y x : ℤ) : ℤ :=
  (img.getD (bi (rowsOf img) y) []).getD (bi (colsOf img) x) 0

/-- Pixel access with `BORDER_REFLECT_101` (the `cv2.Laplacian` default). -/
def pxReflect (img : Img) (y x : ℤ) : ℤ := pxWith reflect101 img y x

/-- Pixel access with `BORDER_REPLICATE` (used by `medianBlur` and
`adaptiveThreshold`). -/
def pxReplicate (img : Img) (y x : ℤ) : ℤ := pxWith replicateIdx img y x

/-- `cv2.Laplacian(image, cv2.CV_64F)` with the default aperture size 1, i.e.
the 3×3 kernel `[[0,1,0],[1,-4,1],[0,1,0]]`, at one pixel. -/
def laplacianAt (img : Img) (y x : ℤ) : ℤ :=
  pxReflect img (y - 1) x + pxReflect img (y + 1) x +
    pxReflect img y (x - 1) + pxReflect img y (x + 1) - 4 * pxReflect img y x

/-- The full Laplacian response, row-major. -/
def laplacianValues (img : Img) : List ℤ :=
  ((List.range (rowsOf img)).map (fun (y : ℕ) =>
    (List.range (colsOf img)).map (fun (x : ℕ) => laplacianAt img (y : ℤ) (x : ℤ)))).flatten

/-- `calculate_sharpness`: Laplacian variance over 1000, clamped to 1. -/
def calculate_sharpness (img : Img) : ℚ :=
  min 1 (listVariance ((laplacianValues img).map (fun (v : ℤ) => (v : ℚ))) / 1000)

/-- `calculate_contrast`: `image.std() / 255` scaled by 4 and clamped to 1.
`σ` stands for `image.std()`, the non-negative square root of the pixel
variance (supplied with that defining property in the theorems, since the
square root of a rational is in general irrational). -/
def calculate_contrast (σ : ℚ) : ℚ := min 1 (σ / 255 * 4)

/-- `image.mean()`. -/
def imageMean (img : Img) : ℚ := listMean ((flatPix img).map (fun (v : ℤ) => (v : ℚ)))

/-- `image.std() ** 2 = image.var()`, the population variance of the pixels. -/
def imageVariance (img : Img) : ℚ :=
  listVariance ((flatPix img).map (fun (v : ℤ) => (v : ℚ)))

/-- `calculate_brightness`: `1 − 2·|mean/255 − 0.5|`. -/
def calculate_brightness (img : Img) : ℚ :=
  1 - |imageMean img / 255 - 1/2| * 2

/-- Insert into a sorted list (ascending). -/
def insertSorted {α : Type} [LinearOrder α] (x : α) : List α → List α
  | [] => [x]
  | y :: ys => if x ≤ y then x :: y :: ys else y :: insertSorted x ys

/-- Insertion sort (ascending). -/
def insSort {α : Type} [LinearOrder α] : List α → List α
  | [] => []
  | x :: xs => insertSorted x (insSort xs)

/-- `cv2.medianBlur(image, 5)` at one pixel: the median (sorted index 12) of
the 25 values of the replicated 5×5 neighborhood. -/
def medianBlur5At (img : Img) (y x : ℤ) : ℤ :=
  (insSort (((List.range 5).map (fun (dy : ℕ) => (List.range 5).map (fun (dx : ℕ) =>
    pxReplicate img (y + (dy : ℤ) - 2) (x + (dx : ℤ) - 2)))).flatten)).getD 12 0

/-- `calculate_noise`: the mean absolute difference between the raster and its
median-filtered version, over 50, clamped to 1. -/
def calculate_noise (img : Img) : ℚ :=
  min 1 (listMean (((List.range (rowsOf img)).map (fun (y : ℕ) =>
    (List.range (colsOf img)).map (fun (x : ℕ) =>
      |(pxReplicate img (y : ℤ) (x : ℤ) : ℚ) -
        (medianBlur5At img (y : ℤ) (x : ℤ) : ℚ)|))).flatten) / 50)

/-- `AdvancedImageProcessor.assess_image_quality` on a single-channel raster:
the weighted sum of the four sub-scores, clamped to [0, 1].  `σ` stands for
`image.std()` as in `calculate_contrast`. -/
def assess_image_quality (img : Img) (σ : ℚ) : ℚ :=
  min 1 (max 0 (
    calculate_sharpness img * 0.4 +
    calculate_contrast σ * 0.3 +
    calculate_brightness img * 0.2 +
    (1 - calculate_noise img) * 0.1))

/-! ### Skew decision (`auto_deskew`, `_correct_skew`) -/

/-- `np.median`: middle of the sorted list, or the average of the two middle
elements for an even length. -/
def npMedian (l : List ℚ) : ℚ :=
  let s := insSort l
  if l.length % 2 = 1 then s.getD (l.length / 2) 0
  else (s.getD (l.length / 2 - 1) 0 + s.getD (l.length / 2) 0) / 2

/-- What a deskew run does to the raster: nothing, or a rotation by the given
angle in degrees. -/
inductive SkewOutcome
  | unchanged
  | rotated (angleDeg : ℚ)
deriving DecidableEq

/-- `AdvancedImageProcessor.auto_deskew` with the line detection abstracted:
`thetasDeg` holds θ of each `HoughLines` line in degrees, strongest first
(`[]` when `HoughLines` returns `None`).  The candidate angles `θ − 90` of
ALL detected lines are medianed; the raster is rotated only when the median
exceeds 0.5° in absolute value. -/
def auto_deskew (thetasDeg : List ℚ) : SkewOutcome :=
  if thetasDeg = [] then .unchanged
  else
    let m := npMedian (thetasDeg.map (fun θ => θ - 90))
    if 1/2 < |m| then .rotated m else .unchanged

/-- The uncaught Python exception the adapter's deskew path raises. -/
inductive PyError
  | valueError
deriving DecidableEq

/-- `TesseractOpenCVAdapter._correct_skew`: `cv2.HoughLines` returns an array
of shape (N, 1, 2) — the sibling `auto_deskew` indexes the same output as
`lines[:, 0]` — so the loop `for rho, theta in lines[:10]` tries to unpack
each shape-(1, 2) row into two names and raises `ValueError: not enough
values to unpack` on its first iteration whenever at least one line is
detected.  The function therefore returns the input unchanged when
`HoughLines` finds no lines, and otherwise raises before any angle is
collected; the ten-line median its body intends is never computed. -/
def adapter_correct_skew (thetasDeg : List ℚ) : Except PyError SkewOutcome :=
  if thetasDeg = [] then .ok .unchanged
  else .error .valueError

/-- The skew decision as the spec's §4.1 words it (for comparison with the
code): the median over at most the ten strongest lines, rotation only past
0.5°, unchanged when no lines are found. -/
def spec_deskew (thetasDeg : List ℚ) : SkewOutcome :=
  if thetasDeg = [] then .unchanged
  else
    let m := npMedian ((thetasDeg.take 10).map (fun θ => θ - 90))
    if 1/2 < |m| then .rotated m else .unchanged

/-! ### Rotation geometry (`rotate_image`, `_rotate_image`) -/

/-- The border fill policy passed to `cv2.warpAffine`. -/
inductive BorderMode
  | replicate
  | constant (value : ℤ)
deriving DecidableEq

/-- The resampling filter passed to (or defaulted by) `cv2.warpAffine`. -/
inductive InterpFlag
  | linear
  | cubic
deriving DecidableEq

/-- The geometry-determining arguments of one `cv2.warpAffine` call. -/
structure WarpAffineCall where
  outW : ℤ
  outH : ℤ
  border : BorderMode
  interp : InterpFlag
deriving DecidableEq

/-- `AdvancedImageProcessor.rotate_image` on an `h × w` raster: `c` and `s`
stand for |cos| and |sin| of the rotation angle (taken from the rotation
matrix; irrational in general, so passed as arguments).  The canvas expands
to `nW = int(h·s + w·c)`, `nH = int(h·c + w·s)`; `INTER_CUBIC` resampling and
`BORDER_REPLICATE` fill are passed explicitly. -/
def rotate_image_call (h w : ℕ) (c s : ℚ) : WarpAffineCall :=
  { outW := ⌊(h : ℚ) * s + (w : ℚ) * c⌋
    outH := ⌊(h : ℚ) * c + (w : ℚ) * s⌋
    border := .replicate
    interp := .cubic }

/-- `TesseractOpenCVAdapter._rotate_image`: the output size is the input
`(width, height)` — the canvas is NOT expanded — the border mode passed is
`BORDER_CONSTANT` with `borderValue = 255` (the adjacent comment says
`BORDER_REPLICATE`), and no interpolation flag is passed, so `cv2.warpAffine`
uses its default `INTER_LINEAR`. -/
def adapter_rotate_image_call (h w : ℕ) (_c _s : ℚ) : WarpAffineCall :=
  { outW := (w : ℤ), outH := (h : ℤ), border := .constant 255, interp := .linear }

/-! ### `_preprocess_image` (`ocr_tesseract_opencv.py`) -/

/-- A constant `r × c` raster. -/
def constImg (r c : ℕ) (v : ℤ) : Img := List.replicate r (List.replicate c v)

/-- The all-zero `r × c` raster. -/
def zeroImg (r c : ℕ) : Img := constImg r c 0

/-- The 11×11 kernel `ADAPTIVE_THRESH_GAUSSIAN_C` uses with block size 11 is
normalized (entries sum to 1) and non-negative; its exact Gaussian entries are
irrational, so the theorems quantify over every kernel with these properties. -/
def GaussKernelNormalized (k : ℕ → ℕ → ℚ) : Prop :=
  ((List.range 11).map (fun i => ((List.range 11).map (fun j => k i j)).sum)).sum = 1 ∧
    ∀ i j, 0 ≤ k i j

/-- The kernel-weighted mean of the replicated 11×11 neighborhood. -/
def gaussMeanAt (k : ℕ → ℕ → ℚ) (img : Img) (y x : ℤ) : ℚ :=
  ((List.range 11).map (fun (dy : ℕ) =>
    ((List.range 11).map (fun (dx : ℕ) =>
      k dy dx * (pxReplicate img (y + (dy : ℤ) - 5) (x + (dx : ℤ) - 5) : ℚ))).sum)).sum

/-- `cv2.adaptiveThreshold(image, 255, ADAPTIVE_THRESH_GAUSSIAN_C,
THRESH_BINARY, 11, 2)`: a pixel strictly above the rounded local weighted
mean minus `C = 2` becomes 255, anything else 0. -/
def adaptive_binarization (k : ℕ → ℕ → ℚ) (img : Img) : Img :=
  (List.range (rowsOf img)).map (fun (y : ℕ) =>
    (List.range (colsOf img)).map (fun (x : ℕ) =>
      if round (gaussMeanAt k img (y : ℤ) (x : ℤ)) - 2 < pxReplicate img (y : ℤ) (x : ℤ)
      then 255 else 0))

/-- The values of the in-range 3×3 neighborhood of `(y, x)`: OpenCV's
erode/dilate use a ±∞ default border value, so out-of-range positions never
decide the min/max and are simply skipped. -/
def neighborhood3 (img : Img) (y x : ℤ) : List ℤ :=
  ((((List.range 3).map (fun (dy : ℕ) => (List.range 3).map (fun (dx : ℕ) =>
      (y + (dy : ℤ) - 1, x + (dx : ℤ) - 1)))).flatten).filter
    (fun p => 0 ≤ p.1 ∧ p.1 < (rowsOf img : ℤ) ∧ 0 ≤ p.2 ∧ p.2 < (colsOf img : ℤ))).map
    (fun p => (img.getD p.1.toNat []).getD p.2.toNat 0)

/-- Minimum of a non-empty list (0 on `[]`, which never occurs: the center
pixel is always in range). -/
def listMinD : List ℤ → ℤ
  | [] => 0
  | v :: vs => vs.foldl min v

/-- Maximum of a non-empty list (0 on `[]`). -/
def listMaxD : List ℤ → ℤ
  | [] => 0
  | v :: vs => vs.foldl max v

/-- `cv2.erode` with the 3×3 rectangular structuring element. -/
def erode3 (img : Img) : Img :=
  (List.range (rowsOf img)).map (fun (y : ℕ) =>
    (List.range (colsOf img)).map (fun (x : ℕ) => listMinD (neighborhood3 img (y : ℤ) (x : ℤ))))

/-- `cv2.dilate` with the 3×3 rectangular structuring element. -/
def dilate3 (img : Img) : Img :=
  (List.range (rowsOf img)).map (fun (y : ℕ) =>
    (List.range (colsOf img)).map (fun (x : ℕ) => listMaxD (neighborhood3 img (y : ℤ) (x : ℤ))))

/-- `_morphological_operations`: `MORPH_OPEN` (erode then dilate) followed by
`MORPH_CLOSE` (dilate then erode), both with the 3×3 kernel. -/
def morphological_operations (img : Img) : Img :=
  erode3 (dilate3 (dilate3 (erode3 img)))

/-- `TesseractOpenCVAdapter._preprocess_image` on a single-channel raster
(step 1, grayscale conversion, is `image.copy()` there).  The optional
library stages — `_remove_noise`, `_enhance_contrast` and `_correct_skew`'s
rotation — are taken as parameters `denoise`, `contrast`, `skew`; adaptive
binarization (step 4) and morphological cleanup (step 6) run unconditionally. -/
def preprocess_image (denoise contrast skew : Img → Img) (k : ℕ → ℕ → ℚ)
    (cfg : OpenCVAdapterCfg) (img : Img) : Img :=
  let gray := img
  let g1 := if cfg.enable_denoising then denoise gray else gray
  let g2 := if cfg.enable_contrast_enhancement then contrast g1 else g1
  let binary := adaptive_binarization k g2
  let b2 := if cfg.enable_deskewing then skew binary else binary
  morphological_operations b2

/-! ### Shared helper lemmas -/

/-- The page loop with an engine that never fails collects all page texts. -/
theorem pageLoop_ok {α : Type} (f : α → String) (l : List α) :
    pageLoop (fun a => .ok (f a)) l = .ok (l.map f) := by
  induction l with
  | nil => rfl
  | cons a t ih => simp [pageLoop, ih]

/-- A population variance is non-negative. -/
theorem listVariance_nonneg (l : List ℚ) : 0 ≤ listVariance l := by
  unfold listVariance
  apply div_nonneg _ (by positivity)
  apply List.sum_nonneg
  intro x hx
  obtain ⟨a, _, rfl⟩ := List.mem_map.mp hx
  positivity

/-- A mean of values in `[0, b]` lies in `[0, b]` when the list is non-empty. -/
theorem listMean_mem_of_bounds (l : List ℚ) (b : ℚ) (hne : l ≠ [])
    (h : ∀ x ∈ l, 0 ≤ x ∧ x ≤ b) : 0 ≤ listMean l ∧ listMean l ≤ b := by
  have hlen : (0 : ℚ) < l.length := by
    have := List.length_pos.mpr hne
    exact_mod_cast this
  constructor
  · exact div_nonneg (List.sum_nonneg fun x hx => (h x hx).1) (le_of_lt hlen)
  · rw [listMean, div_le_iff₀ hlen]
    calc l.sum ≤ l.length • b := List.sum_le_card_nsmul l b fun x hx => (h x hx).2
    _ = b * l.length := by rw [nsmul_eq_mul]; ring

/-- A mean of non-negative values is non-negative (also on `[]`). -/
theorem listMean_nonneg (l : List ℚ) (h : ∀ x ∈ l, 0 ≤ x) : 0 ≤ listMean l :=
  div_nonneg (List.sum_nonneg h) (by positivity)

end OCRCLI

namespace OCRCLI

/-- The first recognition call scores 30 (below the default threshold 60); a
second call would score 70.  This is the spec's escalation scenario on the
implementation's 0–100 confidence scale. -/
def c1Runs : ℕ → OcrRun := fun n =>
  if n = 0 then ⟨"attempt one text", 30⟩ else ⟨"attempt two text", 70⟩

end OCRCLI

namespace OCRCLI

/-- C1: the spec requires a second extraction when the first attempt scores
below `minQualityThreshold` with auto-retry enabled and attempts remaining;
the code's retry branch (use_cases.py lines 172–178) only logs a warning —
"Por simplicidad, usamos el mismo resultado" — so on a document scoring 30
then (hypothetically) 70 against threshold 60, `EnhancedProcessDocument`
performs exactly one recognition call and returns attempt one's text, while
its own class docstring advertises "Reintento automático en caso de baja
calidad". -/
theorem c1_no_second_extraction :
    (enhancedProcess {} true c1Runs).attempts.length = 1 ∧
    (enhancedProcess {} true c1Runs).text = "attempt one text" ∧
    (enhancedProcess {} true c1Runs).warned = true ∧
    (c1Runs 0).confidence < 60 ∧ 60 ≤ (c1Runs 1).confidence := by
  refine ⟨rfl, rfl, by decide, by decide, by decide⟩

/-- C2: the orchestrator performs at most `maxAttempts` recognition calls
(in fact exactly one), its attempt list is never empty, and the text it
returns is the text of the best-scoring attempt among those actually run. -/
theorem c2_attempts_bounded_best_returned (cfg : EnhancedConfig) (hasMetrics : Bool)
    (runs : ℕ → OcrRun) (maxAttempts : ℕ) (h : 1 ≤ maxAttempts) :
    (enhancedProcess cfg hasMetrics runs).attempts.length ≤ maxAttempts ∧
    (enhancedProcess cfg hasMetrics runs).attempts ≠ [] ∧
    bestAttempt (enhancedProcess cfg hasMetrics runs).attempts =
      some ⟨(enhancedProcess cfg hasMetrics runs).text,
        (enhancedProcess cfg hasMetrics runs).quality_score⟩ := by
  cases hasMetrics <;> simp [enhancedProcess, bestAttempt] <;> omega

/-- Witness for C2 at a concrete configuration and recognition run. -/
theorem c2_attempts_bounded_best_returned_witness :
    1 ≤ 2 ∧
    ((enhancedProcess {} true (fun _ => ⟨"page text", 80⟩)).attempts.length ≤ 2 ∧
    (enhancedProcess {} true (fun _ => ⟨"page text", 80⟩)).attempts ≠ [] ∧
    bestAttempt (enhancedProcess {} true (fun _ => ⟨"page text", 80⟩)).attempts =
      some ⟨(enhancedProcess {} true (fun _ => ⟨"page text", 80⟩)).text,
        (enhancedProcess {} true (fun _ => ⟨"page text", 80⟩)).quality_score⟩) :=
  ⟨by omega, c2_attempts_bounded_best_returned {} true (fun _ => ⟨"page text", 80⟩) 2 (by omega)⟩

/-- C7, counterexample: with an unavailable engine the basic adapter's
extraction is the error itself — not the empty-text success the spec
requires — and `EnhancedProcessDocument` re-raises it. -/
theorem c7_failure_not_degraded_cex :
    tesseract_extract_text (fun (_ : Unit) => Except.error OcrFailure.engineUnavailable) [()] =
      .error .engineUnavailable ∧
    tesseract_extract_text (fun (_ : Unit) => Except.error OcrFailure.engineUnavailable) [()] ≠
      .ok "" ∧
    enhancedProcessFallible {} (.error .engineUnavailable) = .error .engineUnavailable := by
  refine ⟨rfl, by simp [tesseract_extract_text, pageLoop, Except.map], rfl⟩

/-- C7, amended: a recognition-engine failure is NOT caught at the boundary:
both adapters propagate it out of the page loop (the first failing page
aborts the document), and `EnhancedProcessDocument.__call__`'s `except` block
re-raises it after recording error metrics; no attempt degrades to empty
text. -/
theorem c7_failures_propagate {α : Type} (recognize : α → Except OcrFailure String)
    (img : α) (imgs : List α) (e : OcrFailure) (h : ∀ a, recognize a = .error e)
    (cfg : EnhancedConfig) (acfg : OpenCVAdapterCfg) (pf : α → α) :
    tesseract_extract_text recognize (img :: imgs) = .error e ∧
    opencv_extract_text acfg pf recognize (img :: imgs) = .error e ∧
    enhancedProcessFallible cfg (.error e) = .error e := by
  refine ⟨?_, ?_, rfl⟩ <;>
    simp [tesseract_extract_text, opencv_extract_text, pageLoop, h, Except.map]

/-- Witness for C7's amended theorem at a concrete failing engine. -/
theorem c7_failures_propagate_witness :
    (∀ a : Unit, (fun (_ : Unit) => Except.error (ε := OcrFailure) (α := String) .timeout) a =
      .error .timeout) ∧
    (tesseract_extract_text (fun (_ : Unit) => Except.error .timeout) [(), ()] =
      .error .timeout ∧
    opencv_extract_text ⟨true, true, true, true⟩ id
      (fun (_ : Unit) => Except.error .timeout) [(), ()] = .error .timeout ∧
    enhancedProcessFallible {} (.error .timeout) = .error .timeout) :=
  ⟨fun _ => rfl,
    c7_failures_propagate (fun _ => Except.error .timeout) () [()] .timeout (fun _ => rfl)
      {} ⟨true, true, true, true⟩ id⟩

/-- `String.intercalate.go` peels an already-accumulated prefix off. -/
theorem intercalate_go_append (s a : String) (ts : List String) : ∀ (b : String),
    String.intercalate.go (a ++ b) s ts = a ++ String.intercalate.go b s ts := by
  induction ts with
  | nil => intro b; rfl
  | cons t ts ih =>
    intro b
    simp only [String.intercalate.go]
    have h : a ++ b ++ s ++ t = a ++ (b ++ s ++ t) := by
      simp [String.append_assoc]
    rw [h, ih]

/-- C10: both adapters join the per-page recognized texts with exactly
`"\n\n"`: the result is `String.intercalate "\n\n"` of the page texts, which
is the empty string for a zero-page document, the single page text for one
page, and `page₁ ++ "\n\n" ++ …` in general. -/
theorem c10_pages_joined {α : Type} (recognize : α → String) (pf : α → α)
    (cfg : OpenCVAdapterCfg) (images : List α) (t u : String) (ts : List String) :
    tesseract_extract_text (fun i => .ok (recognize i)) images =
      .ok (String.intercalate "\n\n" (images.map recognize)) ∧
    opencv_extract_text cfg pf (fun i => .ok (recognize i)) images =
      .ok (String.intercalate "\n\n" (images.map (fun i =>
        recognize (if cfg.enable_preprocessing then pf i else i)))) ∧
    tesseract_extract_text (fun i => Except.ok (recognize i)) ([] : List α) = .ok "" ∧
    String.intercalate "\n\n" [] = "" ∧
    String.intercalate "\n\n" [t] = t ∧
    String.intercalate "\n\n" (t :: u :: ts) =
      t ++ "\n\n" ++ String.intercalate "\n\n" (u :: ts) := by
  refine ⟨?_, ?_, rfl, rfl, rfl, ?_⟩
  · simp [tesseract_extract_text, pageLoop_ok, Except.map]
  · simp [opencv_extract_text, pageLoop_ok, Except.map]
  · simp only [String.intercalate]
    simp only [String.intercalate.go]
    exact intercalate_go_append "\n\n" (t ++ "\n\n") ts u

/-- C6, counterexample: `TesseractOpenCVAdapter._rotate_image` on a 100×100
raster at a rotation angle with |cos| = 3/5 and |sin| = 4/5 keeps the 100-wide
canvas although the rotated bounding box is 140 wide (corners are clipped),
fills the border with constant white instead of replicating, and resamples
with the default bilinear filter, not cubic. -/
theorem c6_adapter_rotation_cex :
    (((adapter_rotate_image_call 100 100 (3/5) (4/5)).outW : ℚ) <
      (100 : ℚ) * (4/5) + (100 : ℚ) * (3/5)) ∧
    (adapter_rotate_image_call 100 100 (3/5) (4/5)).border ≠ BorderMode.replicate ∧
    (adapter_rotate_image_call 100 100 (3/5) (4/5)).interp ≠ InterpFlag.cubic := by
  refine ⟨?_, by decide, by decide⟩
  norm_num [adapter_rotate_image_call]

/-- C6, amended: `AdvancedImageProcessor.rotate_image` expands the canvas to
the truncated rotated bounding box (`int(h·s + w·c)` by `int(h·c + w·s)`,
within 1 of the exact box), replicates the border and resamples cubically;
`TesseractOpenCVAdapter._rotate_image` instead keeps the input `w × h`
canvas, fills with constant 255 and uses the default bilinear filter. -/
theorem c6_rotation_calls (h w : ℕ) (c s : ℚ) :
    (rotate_image_call h w c s).border = BorderMode.replicate ∧
    (rotate_image_call h w c s).interp = InterpFlag.cubic ∧
    (((rotate_image_call h w c s).outW : ℚ) ≤ (h : ℚ) * s + (w : ℚ) * c ∧
      (h : ℚ) * s + (w : ℚ) * c - 1 < ((rotate_image_call h w c s).outW : ℚ)) ∧
    (((rotate_image_call h w c s).outH : ℚ) ≤ (h : ℚ) * c + (w : ℚ) * s ∧
      (h : ℚ) * c + (w : ℚ) * s - 1 < ((rotate_image_call h w c s).outH : ℚ)) ∧
    (adapter_rotate_image_call h w c s).outW = (w : ℤ) ∧
    (adapter_rotate_image_call h w c s).outH = (h : ℤ) ∧
    (adapter_rotate_image_call h w c s).border = BorderMode.constant 255 ∧
    (adapter_rotate_image_call h w c s).interp = InterpFlag.linear := by
  refine ⟨rfl, rfl, ⟨?_, ?_⟩, ⟨?_, ?_⟩, rfl, rfl, rfl, rfl⟩
  · exact Int.floor_le _
  · exact Int.sub_one_lt_floor _
  · exact Int.floor_le _
  · exact Int.sub_one_lt_floor _

/-- The eleven-line Hough output on which the claim and `auto_deskew` part
ways: the ten strongest lines have candidate angles five of 1° and five of
0° (median 0.5°, no rotation), the eleventh has 1°. -/
def c5Lines : List ℚ := [91, 91, 91, 91, 91, 90, 90, 90, 90, 90, 91]

/-- C5, counterexample: on `c5Lines` the claim's decision (median over the
ten strongest lines) is "unchanged" (median exactly 0.5°), but `auto_deskew`
medians over ALL detected lines, so the eleventh line shifts its median to 1°
and it rotates; and the adapter's `_correct_skew` reaches no decision at all —
its row-unpacking raises `ValueError` as soon as lines are detected. -/
theorem c5_auto_deskew_all_lines_cex :
    auto_deskew c5Lines = SkewOutcome.rotated 1 ∧
    spec_deskew c5Lines = SkewOutcome.unchanged ∧
    auto_deskew c5Lines ≠ spec_deskew c5Lines ∧
    adapter_correct_skew c5Lines = Except.error PyError.valueError := by
  have hne : c5Lines ≠ [] := by simp [c5Lines]
  have hm1 : npMedian (c5Lines.map (fun θ => θ - 90)) = 1 := by
    norm_num [c5Lines, npMedian, insSort, insertSorted, List.getD]
  have hm2 : npMedian ((c5Lines.take 10).map (fun θ => θ - 90)) = 1/2 := by
    norm_num [c5Lines, npMedian, insSort, insertSorted, List.getD, List.take]
  have h1 : auto_deskew c5Lines = SkewOutcome.rotated 1 := by
    simp only [auto_deskew, if_neg hne, hm1]
    norm_num
  have h2 : spec_deskew c5Lines = SkewOutcome.unchanged := by
    simp only [spec_deskew, if_neg hne, hm2]
    rw [abs_of_pos (by norm_num : (0:ℚ) < 1/2)]
    norm_num
  have h3 : adapter_correct_skew c5Lines = Except.error PyError.valueError := by
    simp only [adapter_correct_skew, if_neg hne]
  exact ⟨h1, h2, by rw [h1, h2]; simp, h3⟩

/-- C5, amended: `auto_deskew` returns the input unchanged when no lines are
detected, medians the candidate angles of ALL detected lines — not at most
the ten strongest — and rotates only when the median's absolute value
exceeds 0.5° (so it matches the claimed decision exactly when at most ten
lines are detected).  The adapter's `_correct_skew` returns the input
unchanged when no lines are detected and otherwise raises `ValueError`
before any median is computed, because its loop unpacks the shape-(1, 2)
rows of the `HoughLines` output into two names. -/
theorem c5_skew_decision (L : List ℚ) (hne : L ≠ []) :
    auto_deskew [] = SkewOutcome.unchanged ∧
    adapter_correct_skew [] = Except.ok SkewOutcome.unchanged ∧
    adapter_correct_skew L = Except.error PyError.valueError ∧
    (L.length ≤ 10 → auto_deskew L = spec_deskew L) ∧
    (∀ m, auto_deskew L = SkewOutcome.rotated m → 1/2 < |m|) := by
  refine ⟨rfl, rfl, ?_, ?_, ?_⟩
  · simp only [adapter_correct_skew, if_neg hne]
  · intro hlen
    simp only [auto_deskew, spec_deskew, if_neg hne, List.take_of_length_le hlen]
  · intro m hm
    simp only [auto_deskew, if_neg hne] at hm
    split at hm
    · exact (SkewOutcome.rotated.injEq _ _).mp hm ▸ (by assumption)
    · exact absurd hm (by simp)

/-- Witness for C5's amended theorem on a concrete one-line detection. -/
theorem c5_skew_decision_witness :
    ([92] : List ℚ) ≠ [] ∧
    (auto_deskew [] = SkewOutcome.unchanged ∧
    adapter_correct_skew [] = Except.ok SkewOutcome.unchanged ∧
    adapter_correct_skew [92] = Except.error PyError.valueError ∧
    (([92] : List ℚ).length ≤ 10 → auto_deskew [92] = spec_deskew [92]) ∧
    (∀ m, auto_deskew [92] = SkewOutcome.rotated m → 1/2 < |m|)) :=
  ⟨by simp, c5_skew_decision [92] (by simp)⟩

/-- C9: the full OCR-error correction is not idempotent.  On `"la 15"` the
first pass turns the article into `"1a"` before the contextual step sees it
(so `"15"` stays numeric) and capitalization restores `"La"`; on the second
pass the contextual step sees the intact article `"la"` and rewrites the
digits: `correct "la 15" = "La 15"` but `correct "La 15" = "La lS"`. -/
theorem c9_correction_not_idempotent :
    auto_correct_ocr_errors (auto_correct_ocr_errors "la 15".toList) ≠
      auto_correct_ocr_errors "la 15".toList := by
  decide

/-- C8, counterexample: on a text whose strip is empty the score is the early
return `0.0`, not the clamped weighted sum, which evaluates to `0.4` there
(word ratio 0, sentence-length band score 0.5, capitalization 0, special
characters 0 hence `1 − 0`, line consistency 1). -/
theorem c8_empty_text_cex :
    calculate_text_quality_score [] = 0 ∧
    text_quality_formula [] = 2/5 ∧
    calculate_text_quality_score [] ≠ text_quality_formula [] := by
  have h2 : text_quality_formula [] = 2/5 := by
    norm_num [text_quality_formula, calculate_word_ratio, calculate_punctuation_ratio,
      calculate_capitalization_score, calculate_special_chars_ratio,
      calculate_line_consistency, wordTokens, splitOnRuns, splitRunsGo, splitOnCharKeep,
      splitCharGo, pyStrip, listVariance, listMean]
  refine ⟨rfl, h2, ?_⟩
  rw [h2, show calculate_text_quality_score [] = 0 from rfl]
  norm_num

/-- Helper: the word-validity ratio lies in [0, 1]. -/
theorem calculate_word_ratio_mem (l : List Char) :
    0 ≤ calculate_word_ratio l ∧ calculate_word_ratio l ≤ 1 := by
  simp only [calculate_word_ratio]
  split
  · norm_num
  · refine ⟨by positivity, ?_⟩
    refine div_le_one_of_le₀ ?_ (by positivity)
    exact_mod_cast List.countP_le_length _

/-- Helper: the sentence-length band score lies in [0, 1]. -/
theorem calculate_punctuation_ratio_mem (l : List Char) :
    0 ≤ calculate_punctuation_ratio l ∧ calculate_punctuation_ratio l ≤ 1 := by
  simp only [calculate_punctuation_ratio]
  split
  · norm_num
  · split
    · norm_num
    · split <;> norm_num

/-- Helper: the capitalization score lies in [0, 1]. -/
theorem calculate_capitalization_score_mem (l : List Char) :
    0 ≤ calculate_capitalization_score l ∧ calculate_capitalization_score l ≤ 1 := by
  simp only [calculate_capitalization_score]
  split
  · norm_num
  · refine ⟨by positivity, ?_⟩
    refine div_le_one_of_le₀ ?_ (by positivity)
    exact_mod_cast List.countP_le_length _

/-- Helper: the problematic-character ratio lies in [0, 1]. -/
theorem calculate_special_chars_ratio_mem (l : List Char) :
    0 ≤ calculate_special_chars_ratio l ∧ calculate_special_chars_ratio l ≤ 1 := by
  simp only [calculate_special_chars_ratio]
  split
  · norm_num
  · refine ⟨by positivity, ?_⟩
    refine div_le_one_of_le₀ ?_ (by positivity)
    exact_mod_cast List.countP_le_length _

/-- Helper: `min 1 (1 / (1 + v/100))` lies in [0, 1] for non-negative `v`. -/
theorem inv_var_mem (v : ℚ) (hv : 0 ≤ v) :
    0 ≤ min 1 (1 / (1 + v / 100)) ∧ min 1 (1 / (1 + v / 100)) ≤ 1 := by
  have hpos : (0 : ℚ) < 1 + v / 100 := by linarith
  exact ⟨le_min (by norm_num) (le_of_lt (div_pos one_pos hpos)), min_le_left _ _⟩

/-- Helper: the line-consistency score lies in [0, 1]. -/
theorem calculate_line_consistency_mem (l : List Char) :
    0 ≤ calculate_line_consistency l ∧ calculate_line_consistency l ≤ 1 := by
  simp only [calculate_line_consistency]
  split
  · norm_num
  · split
    · norm_num
    · exact inv_var_mem _ (listVariance_nonneg _)

/-- C8, amended: for every text with non-whitespace content the quality score
equals the clamp to [0, 1] of the weighted sum 0.3·wordRatio +
0.2·sentenceBand + 0.2·capitalization + 0.2·(1 − specialChars) +
0.1·lineConsistency, each sub-term already in [0, 1]; a whitespace-only text
instead scores 0 by the early return. -/
theorem c8_quality_formula (l : List Char) (h : pyStrip l ≠ []) :
    calculate_text_quality_score l = text_quality_formula l ∧
    (0 ≤ calculate_word_ratio l ∧ calculate_word_ratio l ≤ 1) ∧
    (0 ≤ calculate_punctuation_ratio l ∧ calculate_punctuation_ratio l ≤ 1) ∧
    (0 ≤ calculate_capitalization_score l ∧ calculate_capitalization_score l ≤ 1) ∧
    (0 ≤ calculate_special_chars_ratio l ∧ calculate_special_chars_ratio l ≤ 1) ∧
    (0 ≤ calculate_line_consistency l ∧ calculate_line_consistency l ≤ 1) ∧
    0 ≤ calculate_text_quality_score l ∧ calculate_text_quality_score l ≤ 1 := by
  have heq : calculate_text_quality_score l = text_quality_formula l := by
    simp [calculate_text_quality_score, h]
  refine ⟨heq, calculate_word_ratio_mem l, calculate_punctuation_ratio_mem l,
    calculate_capitalization_score_mem l, calculate_special_chars_ratio_mem l,
    calculate_line_consistency_mem l, ?_, ?_⟩
  · rw [heq, text_quality_formula]
    exact le_min (by norm_num) (le_max_left 0 _)
  · rw [heq, text_quality_formula]
    exact min_le_left _ _

/-- Witness for C8's amended theorem on a concrete text. -/
theorem c8_quality_formula_witness :
    pyStrip "Hola mundo.".toList ≠ [] ∧
    (calculate_text_quality_score "Hola mundo.".toList =
      text_quality_formula "Hola mundo.".toList ∧
    (0 ≤ calculate_word_ratio "Hola mundo.".toList ∧
      calculate_word_ratio "Hola mundo.".toList ≤ 1) ∧
    (0 ≤ calculate_punctuation_ratio "Hola mundo.".toList ∧
      calculate_punctuation_ratio "Hola mundo.".toList ≤ 1) ∧
    (0 ≤ calculate_capitalization_score "Hola mundo.".toList ∧
      calculate_capitalization_score "Hola mundo.".toList ≤ 1) ∧
    (0 ≤ calculate_special_chars_ratio "Hola mundo.".toList ∧
      calculate_special_chars_ratio "Hola mundo.".toList ≤ 1) ∧
    (0 ≤ calculate_line_consistency "Hola mundo.".toList ∧
      calculate_line_consistency "Hola mundo.".toList ≤ 1) ∧
    0 ≤ calculate_text_quality_score "Hola mundo.".toList ∧
      calculate_text_quality_score "Hola mundo.".toList ≤ 1) :=
  ⟨by decide, c8_quality_formula "Hola mundo.".toList (by decide)⟩

/-- Helper: `getD` inside a `replicate`. -/
theorem getD_replicate {α : Type} (n : ℕ) (a d : α) (i : ℕ) (h : i < n) :
    (List.replicate n a).getD i d = a := by
  rw [List.getD_eq_getElem _ _ (by simpa using h)]
  apply List.getElem_replicate

/-- Helper: a constant raster has `r` rows. -/
theorem rowsOf_constImg (r c : ℕ) (v : ℤ) : rowsOf (constImg r c v) = r := by
  simp [rowsOf, constImg]

/-- Helper: a non-degenerate constant raster has `c` columns. -/
theorem colsOf_constImg (r c : ℕ) (v : ℤ) (hr : 0 < r) : colsOf (constImg r c v) = c := by
  cases r with
  | zero => exact absurd hr (by omega)
  | succ n => simp [colsOf, constImg, List.replicate_succ]

/-- Helper: the replicate border index is always in range. -/
theorem replicateIdx_lt (n : ℕ) (i : ℤ) (h : 0 < n) : replicateIdx n i < n := by
  unfold replicateIdx
  split
  · exact h
  · split <;> omega

/-- Helper: every replicated-border access into a constant raster reads `v`. -/
theorem pxReplicate_constImg (r c : ℕ) (v : ℤ) (hr : 0 < r) (hc : 0 < c) (y x : ℤ) :
    pxReplicate (constImg r c v) y x = v := by
  unfold pxReplicate pxWith
  rw [rowsOf_constImg, colsOf_constImg r c v hr]
  unfold constImg
  rw [getD_replicate r _ _ _ (replicateIdx_lt r y hr),
    getD_replicate c _ _ _ (replicateIdx_lt c x hc)]

/-- Helper: the weighted local mean over the all-zero raster is zero for
every kernel. -/
theorem gaussMeanAt_zeroImg (k : ℕ → ℕ → ℚ) (r c : ℕ) (hr : 0 < r) (hc : 0 < c)
    (y x : ℤ) : gaussMeanAt k (zeroImg r c) y x = 0 := by
  unfold gaussMeanAt
  apply List.sum_eq_zero
  intro srow hrow
  obtain ⟨dy, _, rfl⟩ := List.mem_map.mp hrow
  apply List.sum_eq_zero
  intro t ht
  obtain ⟨dx, _, rfl⟩ := List.mem_map.mp ht
  rw [show zeroImg r c = constImg r c 0 from rfl,
    pxReplicate_constImg r c 0 hr hc]
  norm_num

/-- Helper: a map over `List.range` with a constant value is a `replicate`. -/
theorem range_map_const {α : Type} (n : ℕ) (f : ℕ → α) (a : α) (h : ∀ i < n, f i = a) :
    (List.range n).map f = List.replicate n a := by
  apply List.ext_getElem
  · simp
  · intro i h1 h2
    simp only [List.getElem_map, List.getElem_range, List.getElem_replicate]
    exact h i (by simpa using h1)

/-- Helper: adaptive binarization turns the all-zero raster all white: the
local mean is 0, so the threshold is `round 0 − 2 = −2 < 0`. -/
theorem adaptive_binarization_zeroImg (k : ℕ → ℕ → ℚ) (r c : ℕ) (hr : 0 < r) (hc : 0 < c) :
    adaptive_binarization k (zeroImg r c) = constImg r c 255 := by
  unfold adaptive_binarization
  rw [show zeroImg r c = constImg r c 0 from rfl, rowsOf_constImg,
    colsOf_constImg r c 0 hr]
  show _ = List.replicate r (List.replicate c 255)
  apply range_map_const
  intro y hy
  apply range_map_const
  intro x hx
  rw [show constImg r c 0 = zeroImg r c from rfl,
    gaussMeanAt_zeroImg k r c hr hc,
    show zeroImg r c = constImg r c 0 from rfl,
    pxReplicate_constImg r c 0 hr hc]
  norm_num

/-- Helper: every value of a 3×3 neighborhood of a constant raster is the
constant, and the constant is attained (at the center). -/
theorem neighborhood3_constImg (r c : ℕ) (v : ℤ) (hr : 0 < r) (_hc : 0 < c)
    (y x : ℕ) (hy : y < r) (hx : x < c) :
    (∀ z ∈ neighborhood3 (constImg r c v) (y : ℤ) (x : ℤ), z = v) ∧
      v ∈ neighborhood3 (constImg r c v) (y : ℤ) (x : ℤ) := by
  constructor
  · intro z hz
    unfold neighborhood3 at hz
    obtain ⟨p, hp, rfl⟩ := List.mem_map.mp hz
    have hpf := (List.mem_filter.mp hp).2
    rw [rowsOf_constImg, colsOf_constImg r c v hr] at hpf
    simp only [decide_eq_true_eq] at hpf
    obtain ⟨h1, h2, h3, h4⟩ := hpf
    unfold constImg
    rw [getD_replicate r _ _ _ (by omega), getD_replicate c _ _ _ (by omega)]
  · unfold neighborhood3
    apply List.mem_map.mpr
    refine ⟨((y : ℤ), (x : ℤ)), ?_, ?_⟩
    · apply List.mem_filter.mpr
      constructor
      · apply List.mem_flatten.mpr
        refine ⟨_, List.mem_map.mpr ⟨1, by simp, rfl⟩, ?_⟩
        apply List.mem_map.mpr
        refine ⟨1, by simp, ?_⟩
        norm_num [Prod.ext_iff]
      · rw [rowsOf_constImg, colsOf_constImg r c v hr]
        simp only [decide_eq_true_eq]
        omega
    · unfold constImg
      rw [getD_replicate r _ _ _ (by omega), getD_replicate c _ _ _ (by omega)]

/-- Helper: folding `min` over values all equal to the start keeps it. -/
theorem foldl_min_const (v : ℤ) (l : List ℤ) (h : ∀ z ∈ l, z = v) :
    l.foldl min v = v := by
  induction l with
  | nil => rfl
  | cons a t ih =>
    have ha : a = v := h a (by simp)
    subst ha
    simp only [List.foldl_cons, min_self]
    exact ih fun z hz => h z (by simp [hz])

/-- Helper: folding `max` over values all equal to the start keeps it. -/
theorem foldl_max_const (v : ℤ) (l : List ℤ) (h : ∀ z ∈ l, z = v) :
    l.foldl max v = v := by
  induction l with
  | nil => rfl
  | cons a t ih =>
    have ha : a = v := h a (by simp)
    subst ha
    simp only [List.foldl_cons, max_self]
    exact ih fun z hz => h z (by simp [hz])

/-- Helper: the minimum of a non-empty all-`v` list is `v`. -/
theorem listMinD_const (l : List ℤ) (v : ℤ) (hmem : v ∈ l) (hall : ∀ z ∈ l, z = v) :
    listMinD l = v := by
  cases l with
  | nil => cases hmem
  | cons a t =>
    have ha : a = v := hall a (by simp)
    subst ha
    exact foldl_min_const a t fun z hz => hall z (by simp [hz])

/-- Helper: the maximum of a non-empty all-`v` list is `v`. -/
theorem listMaxD_const (l : List ℤ) (v : ℤ) (hmem : v ∈ l) (hall : ∀ z ∈ l, z = v) :
    listMaxD l = v := by
  cases l with
  | nil => cases hmem
  | cons a t =>
    have ha : a = v := hall a (by simp)
    subst ha
    exact foldl_max_const a t fun z hz => hall z (by simp [hz])

/-- Helper: erosion keeps a constant raster. -/
theorem erode3_constImg (r c : ℕ) (v : ℤ) (hr : 0 < r) (hc : 0 < c) :
    erode3 (constImg r c v) = constImg r c v := by
  unfold erode3
  rw [rowsOf_constImg, colsOf_constImg r c v hr]
  show _ = List.replicate r (List.replicate c v)
  apply range_map_const
  intro y hy
  apply range_map_const
  intro x hx
  have h := neighborhood3_constImg r c v hr hc y x hy hx
  exact listMinD_const _ v h.2 h.1

/-- Helper: dilation keeps a constant raster. -/
theorem dilate3_constImg (r c : ℕ) (v : ℤ) (hr : 0 < r) (hc : 0 < c) :
    dilate3 (constImg r c v) = constImg r c v := by
  unfold dilate3
  rw [rowsOf_constImg, colsOf_constImg r c v hr]
  show _ = List.replicate r (List.replicate c v)
  apply range_map_const
  intro y hy
  apply range_map_const
  intro x hx
  have h := neighborhood3_constImg r c v hr hc y x hy hx
  exact listMaxD_const _ v h.2 h.1

/-- Helper: with denoise, contrast and deskew disabled, the pipeline maps the
all-zero raster to the all-255 raster (binarization then open/close). -/
theorem preprocess_image_zeroImg (denoise contrast skew : Img → Img) (k : ℕ → ℕ → ℚ)
    (r c : ℕ) (hr : 0 < r) (hc : 0 < c) (ep : Bool) :
    preprocess_image denoise contrast skew k ⟨ep, false, false, false⟩ (zeroImg r c) =
      constImg r c 255 := by
  unfold preprocess_image morphological_operations
  simp only [Bool.false_eq_true, if_false]
  rw [adaptive_binarization_zeroImg k r c hr hc,
    erode3_constImg r c 255 hr hc, dilate3_constImg r c 255 hr hc,
    dilate3_constImg r c 255 hr hc, erode3_constImg r c 255 hr hc]

/-- Helper: the all-255 raster differs from the all-zero raster. -/
theorem const255_ne_zeroImg (r c : ℕ) (hr : 0 < r) (hc : 0 < c) :
    constImg r c 255 ≠ zeroImg r c := by
  intro h
  have h0 := congrArg (fun im => pxReplicate im 0 0) h
  simp only at h0
  rw [pxReplicate_constImg r c 255 hr hc,
    show zeroImg r c = constImg r c 0 from rfl,
    pxReplicate_constImg r c 0 hr hc] at h0
  exact absurd h0 (by norm_num)

/-- C4, counterexample: with the deskew, denoise and contrast flags all
false (and preprocessing on, as the cited `_preprocess_image` is), the
pipeline is not the identity: the 2×2 all-zero raster comes back all-255,
because grayscale copy, adaptive binarization (block 11, C = 2) and the 3×3
open/close run unconditionally. -/
theorem c4_not_identity_cex :
    preprocess_image id id id (fun _ _ => 1/121) ⟨true, false, false, false⟩ (zeroImg 2 2) ≠
      zeroImg 2 2 := by
  rw [preprocess_image_zeroImg id id id (fun _ _ => 1/121) 2 2 (by norm_num) (by norm_num) true]
  decide

/-- C4, amended: the photometric stages are a no-op passthrough exactly when
the master `enable_preprocessing` flag is false (the adapter then behaves as
the basic adapter); with preprocessing enabled and the three optional stages
disabled, adaptive binarization and morphological cleanup still run, and map
every non-degenerate all-zero raster to the all-255 raster — never back to
the input. -/
theorem c4_flags_off_behavior (denoise contrast skew : Img → Img) (k : ℕ → ℕ → ℚ)
    (r c : ℕ) (hr : 0 < r) (hc : 0 < c) (ep : Bool) :
    preprocess_image denoise contrast skew k ⟨ep, false, false, false⟩ (zeroImg r c) =
      constImg r c 255 ∧
    preprocess_image denoise contrast skew k ⟨ep, false, false, false⟩ (zeroImg r c) ≠
      zeroImg r c ∧
    (∀ {α : Type} (pf : α → α) (recognize : α → Except OcrFailure String) (imgs : List α),
      opencv_extract_text ⟨false, false, false, false⟩ pf recognize imgs =
        tesseract_extract_text recognize imgs) := by
  have h := preprocess_image_zeroImg denoise contrast skew k r c hr hc ep
  refine ⟨h, ?_, ?_⟩
  · rw [h]
    exact const255_ne_zeroImg r c hr hc
  · intro α pf recognize imgs
    simp [opencv_extract_text, tesseract_extract_text]

/-- Witness for C4's amended theorem at a concrete kernel and raster. -/
theorem c4_flags_off_behavior_witness :
    0 < 1 ∧ 0 < 1 ∧
    (preprocess_image id id id (fun _ _ => 1/121) ⟨true, false, false, false⟩ (zeroImg 1 1) =
      constImg 1 1 255 ∧
    preprocess_image id id id (fun _ _ => 1/121) ⟨true, false, false, false⟩ (zeroImg 1 1) ≠
      zeroImg 1 1 ∧
    (∀ {α : Type} (pf : α → α) (recognize : α → Except OcrFailure String) (imgs : List α),
      opencv_extract_text ⟨false, false, false, false⟩ pf recognize imgs =
        tesseract_extract_text recognize imgs)) :=
  ⟨by omega, by omega,
    c4_flags_off_behavior id id id (fun _ _ => 1/121) 1 1 (by omega) (by omega) true⟩

/-- C3: the composite image-quality score is exactly the clamp to [0, 1] of
sharpness×0.4 + contrast×0.3 + brightness×0.2 + (1 − noise)×0.1; each
sub-score lies in [0, 1] for every non-empty uint8 raster (all-zero, all-max
and single-pixel included), the composite lies in [0, 1], and the pixel count
every mean/variance divides by is non-zero.  `σ` stands for `image.std()`,
the non-negative square root of `image.var()`: since that root is irrational
for most rasters, the theorem quantifies over every non-negative `σ` (the
true standard deviation among them — the variance is non-negative, last
conjunct), so the bounds hold uniformly in it. -/
theorem c3_image_quality_composite (img : Img) (σ : ℚ)
    (hσ0 : 0 ≤ σ)
    (hne : flatPix img ≠ [])
    (hrange : ∀ v ∈ flatPix img, 0 ≤ v ∧ v ≤ 255) :
    assess_image_quality img σ =
      min 1 (max 0 (calculate_sharpness img * 0.4 + calculate_contrast σ * 0.3 +
        calculate_brightness img * 0.2 + (1 - calculate_noise img) * 0.1)) ∧
    (0 ≤ calculate_sharpness img ∧ calculate_sharpness img ≤ 1) ∧
    (0 ≤ calculate_contrast σ ∧ calculate_contrast σ ≤ 1) ∧
    (0 ≤ calculate_brightness img ∧ calculate_brightness img ≤ 1) ∧
    (0 ≤ calculate_noise img ∧ calculate_noise img ≤ 1) ∧
    (0 ≤ assess_image_quality img σ ∧ assess_image_quality img σ ≤ 1) ∧
    0 ≤ imageVariance img ∧
    ((flatPix img).length : ℚ) ≠ 0 := by
  have hmean : 0 ≤ listMean ((flatPix img).map (fun (v : ℤ) => (v : ℚ))) ∧
      listMean ((flatPix img).map (fun (v : ℤ) => (v : ℚ))) ≤ 255 := by
    apply listMean_mem_of_bounds _ 255
      (by simp only [ne_eq, List.map_eq_nil_iff]; exact hne)
    intro x hx
    rw [List.mem_map] at hx
    obtain ⟨w, hw, hwx⟩ := hx
    subst hwx
    exact ⟨by exact_mod_cast (hrange w hw).1, by exact_mod_cast (hrange w hw).2⟩
  have hsharp : 0 ≤ calculate_sharpness img ∧ calculate_sharpness img ≤ 1 := by
    unfold calculate_sharpness
    exact ⟨le_min (by norm_num) (div_nonneg (listVariance_nonneg _) (by norm_num)),
      min_le_left _ _⟩
  have hcon : 0 ≤ calculate_contrast σ ∧ calculate_contrast σ ≤ 1 := by
    unfold calculate_contrast
    exact ⟨le_min (by norm_num) (mul_nonneg (div_nonneg hσ0 (by norm_num)) (by norm_num)),
      min_le_left _ _⟩
  have hbr : 0 ≤ calculate_brightness img ∧ calculate_brightness img ≤ 1 := by
    unfold calculate_brightness imageMean
    have h1 : 0 ≤ listMean ((flatPix img).map (fun (v : ℤ) => (v : ℚ))) / 255 :=
      div_nonneg hmean.1 (by norm_num)
    have h2 : listMean ((flatPix img).map (fun (v : ℤ) => (v : ℚ))) / 255 ≤ 1 :=
      (div_le_one (by norm_num)).mpr hmean.2
    have habs : |listMean ((flatPix img).map (fun (v : ℤ) => (v : ℚ))) / 255 - 1/2| ≤ 1/2 :=
      abs_le.mpr ⟨by linarith, by linarith⟩
    have habs0 := abs_nonneg (listMean ((flatPix img).map (fun (v : ℤ) => (v : ℚ))) / 255 - 1/2)
    exact ⟨by linarith, by linarith⟩
  have hns : 0 ≤ calculate_noise img ∧ calculate_noise img ≤ 1 := by
    unfold calculate_noise
    refine ⟨le_min (by norm_num) (div_nonneg (listMean_nonneg _ ?_) (by norm_num)),
      min_le_left _ _⟩
    intro x hx
    obtain ⟨row, hrow, hxr⟩ := List.mem_flatten.mp hx
    obtain ⟨yy, _, rfl⟩ := List.mem_map.mp hrow
    obtain ⟨xx, _, rfl⟩ := List.mem_map.mp hxr
    exact abs_nonneg _
  have hass : 0 ≤ assess_image_quality img σ ∧ assess_image_quality img σ ≤ 1 := by
    unfold assess_image_quality
    exact ⟨le_min (by norm_num) (le_max_left 0 _), min_le_left _ _⟩
  refine ⟨rfl, hsharp, hcon, hbr, hns, hass, listVariance_nonneg _, ?_⟩
  have : (flatPix img).length ≠ 0 := by
    simpa [List.length_eq_zero] using hne
  exact_mod_cast this

/-- Witness for C3 on the 1×2 raster `[[0, 30]]`, whose standard deviation is
the exact rational 15. -/
theorem c3_image_quality_composite_witness :
    ((0 : ℚ) ≤ 15 ∧ (15 : ℚ) ^ 2 = imageVariance [[0, 30]] ∧
      flatPix [[0, 30]] ≠ [] ∧ (∀ v ∈ flatPix [[0, 30]], 0 ≤ v ∧ v ≤ 255)) ∧
    (assess_image_quality [[0, 30]] 15 =
      min 1 (max 0 (calculate_sharpness [[0, 30]] * 0.4 + calculate_contrast 15 * 0.3 +
        calculate_brightness [[0, 30]] * 0.2 + (1 - calculate_noise [[0, 30]]) * 0.1)) ∧
    (0 ≤ calculate_sharpness [[0, 30]] ∧ calculate_sharpness [[0, 30]] ≤ 1) ∧
    (0 ≤ calculate_contrast 15 ∧ calculate_contrast 15 ≤ 1) ∧
    (0 ≤ calculate_brightness [[0, 30]] ∧ calculate_brightness [[0, 30]] ≤ 1) ∧
    (0 ≤ calculate_noise [[0, 30]] ∧ calculate_noise [[0, 30]] ≤ 1) ∧
    (0 ≤ assess_image_quality [[0, 30]] 15 ∧ assess_image_quality [[0, 30]] 15 ≤ 1) ∧
    0 ≤ imageVariance [[0, 30]] ∧
    ((flatPix [[0, 30]]).length : ℚ) ≠ 0) := by
  have hstd : (15 : ℚ) ^ 2 = imageVariance [[0, 30]] := by
    norm_num [imageVariance, listVariance, listMean, flatPix]
  exact ⟨⟨by norm_num, hstd, by decide, by decide⟩,
    c3_image_quality_composite [[0, 30]] 15 (by norm_num) (by decide) (by decide)⟩

end OCRCLI
